import Mathlib

/-!
Verification of the checkout workflow of the "Buy It Now" storefront client.

The JavaScript sources are shallowly embedded: strings are modelled as
`List Char`, JS `undefined`/`null` as `Option.none`, and the stateful
React handlers as pure functions over their explicit inputs.  Each
definition is translated from the source file and line range noted in its
doc comment.
-/

namespace BuyItNow

/-- Whitespace characters matched by the JS regex class used in
the payment form handlers. -/
def isWsChar (c : Char) : Bool :=
  c == ' ' || c == '\t' || c == '\n' || c == '\r'

/-- Embedding of `String.prototype.trim`: drop whitespace at both ends. -/
def trimStr (s : List Char) : List Char :=
  ((s.dropWhile isWsChar).reverse.dropWhile isWsChar).reverse

/-- Embedding of the digit-stripping replace calls
(components/cart/Payment, lines 665 and 745). -/
def stripNonDigits (s : List Char) : List Char :=
  s.filter (fun c => c.isDigit)

/-- Splitting a (trimmed) string at maximal whitespace runs, the embedding of
trimmed.split on a whitespace-run regex.  On the trimmed, non-empty strings the
handlers feed it, this agrees with the JS split; on the empty string JS yields
a single empty token while this yields no token, and both are rejected by every
check below. -/
def splitWsAux : List Char → List Char → List (List Char)
  | cur, [] => if cur.isEmpty then [] else [cur.reverse]
  | cur, c :: cs =>
    if isWsChar c then
      if cur.isEmpty then splitWsAux [] cs
      else cur.reverse :: splitWsAux [] cs
    else splitWsAux (c :: cur) cs

def splitWs (s : List Char) : List (List Char) := splitWsAux [] s

/-- Embedding of the regex test for the 8-digit local mobile pattern
77 followed by six digits (components/cart/Payment, lines 674 and 768). -/
def isDjiboutiFormat (s : List Char) : Bool :=
  match s with
  | a :: b :: rest => a == '7' && b == '7' && rest.length == 6 && rest.all Char.isDigit
  | _ => false

/-- Does `pat` occur at the head of `s`? -/
def startsWithSeq : List Char → List Char → Bool
  | [], _ => true
  | _ :: _, [] => false
  | p :: ps, c :: cs => p == c && startsWithSeq ps cs

/-- Substring occurrence, the embedding of an unanchored regex test. -/
def containsAt (pat : List Char) : List Char → Bool
  | [] => pat.isEmpty
  | c :: cs => startsWithSeq pat (c :: cs) || containsAt pat cs

/-- The fixed block-list of obviously fake local numbers
(components/cart/Payment, line 678). -/
def blockList : List (List Char) :=
  ["77000000".toList, "77111111".toList, "77123456".toList, "77654321".toList]

/-- Embedding of the unanchored alternation regex testing for a block-listed
sequence (components/cart/Payment, lines 678-680). -/
def isSimpleNumber (s : List Char) : Bool :=
  blockList.any (fun p => containsAt p s)

/-- Embedding of the all-zeros regex (lines 690 and 801). -/
def isAllZeros (s : List Char) : Bool :=
  !s.isEmpty && s.all (fun c => c == '0')

/-- Embedding of the repeated-single-digit regex (lines 691 and 801):
a digit followed by one or more copies of itself. -/
def isRepeating (s : List Char) : Bool :=
  match s with
  | [] => false
  | c :: cs => c.isDigit && !cs.isEmpty && cs.all (fun d => d == c)

/-- Embedding of the live account-number validation in
handleAccountNumberChange (components/cart/Payment, lines 664-718): the typed
value is stripped to digits and classified; the result is the numberValid
state, with `none` for the untouched (empty) field. -/
def liveNumberValid (input : List Char) : Option Bool :=
  if stripNonDigits input = [] then none
  else if isDjiboutiFormat (stripNonDigits input) = true then
    some (!(isSimpleNumber (stripNonDigits input)))
  else if 4 ≤ (stripNonDigits input).length ∧ (stripNonDigits input).length ≤ 30 then
    some (!(isAllZeros (stripNonDigits input)) && !(isRepeating (stripNonDigits input)))
  else some false

/-- Embedding of the live account-name validation in handleAccountNameChange
(components/cart/Payment, lines 636-661): nameValid is null while the field is
empty, and otherwise requires at least two whitespace-separated tokens of at
least two characters each in the trimmed value. -/
def liveNameValid (value : List Char) : Option Bool :=
  if value = [] then none
  else some (decide (2 ≤ (splitWs (trimStr value)).length) &&
             decide (∀ w ∈ splitWs (trimStr value), 2 ≤ w.length))

/-- The CASH platform identifier. -/
def cashStr : List Char := "CASH".toList

/-- The placeholder account name used for cash payments
(components/cart/Payment, line 866). -/
def cashPlaceholder : List Char := "Paiement en espèces".toList

/-- A server-provided payment method (platform plus the optional
isCashPayment flag some records carry). -/
structure PaymentMethod where
  platform : List Char
  isCashPayment : Bool
deriving DecidableEq

/-- Embedding of the isCashPayment memo (components/cart/Payment,
lines 517-521): the selected platform is CASH or carries the cash flag. -/
def isCashPayment (selected : Option PaymentMethod) : Bool :=
  match selected with
  | none => false
  | some p => p.platform == cashStr || p.isCashPayment

/-- Result of the external validateDjiboutiPayment helper
(imported from a module that is not part of this component):
its verdict is an input to the submit-time validation. -/
structure DjResult where
  isValid : Bool
  errors : List (List Char)

/-- The data field of a successful validation result
(components/cart/Payment, lines 740 and 820-823). -/
inductive PaymentData where
  | cash
  | account (accountName accountNumber : List Char)
deriving DecidableEq

/-- The error keys of a failed validation result
(components/cart/Payment, lines 751 and 760). -/
inductive VError where
  | allFieldsRequired
  | nameInvalid
deriving DecidableEq

/-- A defined return value of validatePaymentData; the bare returns in the
failure branches are modelled as `Option.none` around this type. -/
inductive VResult where
  | ok (data : PaymentData)
  | err (e : VError)
deriving DecidableEq

/-- Embedding of validatePaymentData (components/cart/Payment, lines 737-824).
The branches that only toast, reset the submit state and fall through a bare
return produce JS `undefined`, here `none`. -/
def validatePaymentData (dj : DjResult) (selected : Option PaymentMethod)
    (accountName accountNumber : List Char) : Option VResult :=
  if isCashPayment selected = true then
    some (VResult.ok PaymentData.cash)
  else if selected = none ∨ trimStr accountName = [] ∨ stripNonDigits accountNumber = [] then
    some (VResult.err VError.allFieldsRequired)
  else if (splitWs (trimStr accountName)).length < 2 ∨
          ∃ w ∈ splitWs (trimStr accountName), w.length < 2 then
    some (VResult.err VError.nameInvalid)
  else if isDjiboutiFormat (stripNonDigits accountNumber) = true then
    if dj.isValid = true then
      some (VResult.ok (PaymentData.account (trimStr accountName) (stripNonDigits accountNumber)))
    else none
  else if (stripNonDigits accountNumber).length < 4 ∨ 30 < (stripNonDigits accountNumber).length then
    none
  else if isAllZeros (stripNonDigits accountNumber) = true ∨
          isRepeating (stripNonDigits accountNumber) = true then
    none
  else
    some (VResult.ok (PaymentData.account (trimStr accountName) (stripNonDigits accountNumber)))

/-- The paymentInfo record built on a successful submit
(components/cart/Payment, lines 862-870). -/
structure PaymentInfo where
  typePayment : List Char
  paymentAccountNumber : List Char
  paymentAccountName : List Char
  paymentDate : List Char
  isCashPayment : Bool
deriving DecidableEq

/-- The user-visible outcome of one handlePayment invocation. -/
inductive SubmitOutcome where
  | busyToast
  | noPaymentSelected
  | fieldErrors (e : VError)
  | genericError
  | proceeded (info : PaymentInfo)
deriving DecidableEq

/-- A thrown JS exception; reading a property of `undefined` raises a
TypeError. -/
inductive JsErr where
  | typeError
deriving DecidableEq

/-- Embedding of the try block of handlePayment (components/cart/Payment,
lines 837-885): check a method is selected, validate, then build paymentInfo
and hand the order draft on.  Reading `.isValid` on the `undefined` returned
by the bare-return branches of validatePaymentData throws a TypeError. -/
def handlePaymentBody (dj : DjResult) (sel : Option PaymentMethod)
    (accountName accountNumber now : List Char) : Except JsErr SubmitOutcome :=
  match sel with
  | none => Except.ok SubmitOutcome.noPaymentSelected
  | some s =>
    match validatePaymentData dj sel accountName accountNumber with
    | none => Except.error JsErr.typeError
    | some (VResult.err e) => Except.ok (SubmitOutcome.fieldErrors e)
    | some (VResult.ok _) =>
      Except.ok (SubmitOutcome.proceeded
        { typePayment := s.platform
          paymentAccountNumber := if isCashPayment sel then cashStr else accountNumber
          paymentAccountName := if isCashPayment sel then cashPlaceholder else trimStr accountName
          paymentDate := now
          isCashPayment := isCashPayment sel })

/-- The synchronous prologue of handlePayment (components/cart/Payment,
lines 827-835): the submit-attempt counter is incremented and a value above 1
rejects the invocation. -/
def submitGuard (attempts : Nat) : Nat × Bool :=
  (attempts + 1, decide (attempts + 1 ≤ 1))

/-- The setTimeout callback scheduled by a rejected invocation
(components/cart/Payment, lines 829-831) returns the counter to 0. -/
def resetAfterTimeout (_attempts : Nat) : Nat :=
  0

/-- Embedding of one full handlePayment invocation from counter state
`attempts`: the guard runs first; the catch branch maps a thrown TypeError to
the generic error toast; the finally branch returns the counter to 0. -/
def handlePaymentRun (attempts : Nat) (dj : DjResult) (sel : Option PaymentMethod)
    (accountName accountNumber now : List Char) : Nat × SubmitOutcome :=
  let g := submitGuard attempts
  if g.2 = false then (g.1, SubmitOutcome.busyToast)
  else
    match handlePaymentBody dj sel accountName accountNumber now with
    | Except.ok o => (0, o)
    | Except.error _ => (0, SubmitOutcome.genericError)

/-- Two invocations of handlePayment in rapid succession from an idle counter,
the second arriving before the first resolves (so before the first finally
resets the counter): returns whether the first proceeds past the guard, the
outcome of the second, and the counter the second leaves behind. -/
def rapidDoubleSubmit (dj : DjResult) (sel : Option PaymentMethod)
    (accountName accountNumber now : List Char) : Bool × SubmitOutcome × Nat :=
  let g1 := submitGuard 0
  let second := handlePaymentRun g1.1 dj sel accountName accountNumber now
  (g1.2, second.2, second.1)

/-- A cart line item.  Price and subtotal are JS numbers, modelled as exact
rationals; quantity is a natural number. -/
structure CartItem where
  price : ℚ
  quantity : ℕ
  subtotal : ℚ
deriving DecidableEq

/-- Modelled from the spec: the cart state holder (an ambient context
provider, not among these components) derives cartTotal as the sum of the
item subtotals. -/
def cartTotal (c : List CartItem) : ℚ :=
  (c.map (fun i => i.subtotal)).sum

/-- Modelled from the spec: the cart state holder derives cartCount as the
sum of the item quantities. -/
def cartCount (c : List CartItem) : ℕ :=
  (c.map (fun i => i.quantity)).sum

/-- Modelled from the spec: each item's subtotal is price × quantity,
recomputed on every quantity change. -/
def subtotalInvariant (c : List CartItem) : Prop :=
  ∀ i ∈ c, i.subtotal = i.price * (i.quantity : ℚ)

/-- The order draft accumulated across the checkout pages; only the fields
the review-order entry guard inspects are modelled. -/
structure OrderInfo where
  paymentInfo : Option PaymentInfo

/-- What the review-order entry check does on mount. -/
inductive ReviewAction where
  | toastAndGoPayment
  | toastAndGoCart
  | render
deriving DecidableEq

/-- Embedding of checkOrderData (components/cart/ReviewOrder, lines 53-87):
without a filled paymentInfo the user is toasted and sent to /payment;
with an empty or absent cart, toasted and sent to /cart; otherwise the page
renders. -/
def checkOrderData (orderInfo : Option OrderInfo) (cart : Option (List CartItem)) :
    ReviewAction :=
  match orderInfo with
  | none => ReviewAction.toastAndGoPayment
  | some oi =>
    match oi.paymentInfo with
    | none => ReviewAction.toastAndGoPayment
    | some _ =>
      match cart with
      | none => ReviewAction.toastAndGoCart
      | some items => if items.isEmpty then ReviewAction.toastAndGoCart else ReviewAction.render

/-- What the confirmation page renders. -/
inductive ConfirmationView where
  | notFoundPage
  | confirmationContent (orderId : List Char)
deriving DecidableEq

/-- Embedding of the orderId guard of the Confirmation component
(components/cart/Confirmation, lines 74-76): an undefined or null orderId
renders the not-found view, anything else the confirmation content. -/
def confirmationRender (orderId : Option (List Char)) : ConfirmationView :=
  match orderId with
  | none => ConfirmationView.notFoundPage
  | some i => ConfirmationView.confirmationContent i

/-- Coercion of a 64-bit-exact integer to a signed 32-bit value, the effect
of the JS bitwise operators in the hash below. -/
def toInt32 (n : Int) : Int :=
  (n + 2147483648) % 4294967296 - 2147483648

/-- One step of the email hash (monitoring/sentry.js, lines 144-148):
hash = (hash << 5) - hash + charCode, coerced back to 32 bits. -/
def hashStep (h : Int) (code : Nat) : Int :=
  toInt32 (toInt32 (h * 32) - h + code)

/-- Embedding of hashCode (monitoring/sentry.js, lines 142-150) up to the
final hex rendering: fold the step over the character codes from 0. -/
def hashCode (s : List Char) : Int :=
  s.foldl (fun h c => hashStep h c.toNat) 0

/-- The hex digit characters produced by Number.prototype.toString(16). -/
def hexDigitChar (m : Nat) : Char :=
  if m < 10 then Char.ofNat (48 + m) else Char.ofNat (87 + m)

def natToHexAux : Nat → Nat → List Char
  | 0, _ => []
  | fuel + 1, n =>
    if n = 0 then [] else natToHexAux fuel (n / 16) ++ [hexDigitChar (n % 16)]

/-- Embedding of Math.abs(hash).toString(16): base-16 rendering of a natural
number, most significant digit first. -/
def natToHex (n : Nat) : List Char :=
  if n = 0 then ['0'] else natToHexAux (n + 1) n

/-- Is the character one of the sixteen lowercase hex digits? -/
def isHexDigit (c : Char) : Bool :=
  "0123456789abcdef".toList.contains c

/-- The fixed anonymization domain appended to the hashed email
(monitoring/sentry.js, line 134). -/
def anonDomain : List Char := "@anonymized.user".toList

/-- The anonymized email sent in place of the raw address. -/
def anonEmail (email : List Char) : List Char :=
  natToHex (hashCode email).natAbs ++ anonDomain

/-- The application user object passed to setUser; absent fields are none. -/
structure AppUser where
  id : Option (List Char)
  mongoId : Option (List Char)
  email : Option (List Char)
  role : Option (List Char)

/-- The identity record handed to the monitoring service: only an id, an
optional anonymized email and a role. -/
structure SentryUser where
  id : Option (List Char)
  email : Option (List Char)
  role : List Char
deriving DecidableEq

/-- JS truthiness of an optional string: present and non-empty. -/
def truthy : Option (List Char) → Bool
  | none => false
  | some s => !s.isEmpty

/-- Embedding of setUser (monitoring/sentry.js, lines 121-137): a null user
clears the reported identity; otherwise the identity carries id (falling back
to the _id field), the hashed-and-suffixed email when one is present, and the
role defaulted to "user". -/
def setUser (user : Option AppUser) : Option SentryUser :=
  match user with
  | none => none
  | some u =>
    some
      { id := if truthy u.id then u.id else u.mongoId
        email :=
          match u.email with
          | some e => if e.isEmpty then none else some (anonEmail e)
          | none => none
        role := if truthy u.role then u.role.getD [] else "user".toList }

/-- The first-and-last-name heuristic the payment form enforces: the trimmed
name splits into at least two tokens of at least two characters each. -/
def goodName (accountName : List Char) : Prop :=
  2 ≤ (splitWs (trimStr accountName)).length ∧
    ∀ w ∈ splitWs (trimStr accountName), 2 ≤ w.length

instance (a : List Char) : Decidable (goodName a) := by
  unfold goodName; infer_instance

lemma goodName_trim_ne {a : List Char} (h : goodName a) : trimStr a ≠ [] := by
  intro he
  have h1 := h.1
  rw [he] at h1
  simp [splitWs, splitWsAux] at h1

/-- C1: invoking the guarded submit action twice in rapid succession, the
second before the first resolves, dispatches exactly one submission attempt:
the first invocation passes the submit-attempt counter guard, the second is
rejected with the busy toast while the counter sits at 2, and the scheduled
timeout resets the counter to 0. -/
theorem submit_counter_single_dispatch :
    ∀ (dj : DjResult) (sel : Option PaymentMethod) (accountName accountNumber now : List Char),
      rapidDoubleSubmit dj sel accountName accountNumber now =
        (true, SubmitOutcome.busyToast, 2) ∧
      resetAfterTimeout 2 = 0 := by
  intro dj sel accountName accountNumber now
  exact ⟨rfl, rfl⟩

/-- C5: with the CASH platform selected, submit-time validation succeeds
unconditionally — whatever the name and number fields hold — and the
paymentInfo handed to the order draft carries the CASH account number, the
cash placeholder name and the isCashPayment flag. -/
theorem cash_payment_unconditional :
    ∀ (dj : DjResult) (sel : PaymentMethod) (accountName accountNumber now : List Char),
      sel.platform = cashStr →
      validatePaymentData dj (some sel) accountName accountNumber =
        some (VResult.ok PaymentData.cash) ∧
      handlePaymentRun 0 dj (some sel) accountName accountNumber now =
        (0, SubmitOutcome.proceeded
          { typePayment := sel.platform
            paymentAccountNumber := cashStr
            paymentAccountName := cashPlaceholder
            paymentDate := now
            isCashPayment := true }) := by
  intro dj sel accountName accountNumber now hplat
  have hcash : isCashPayment (some sel) = true := by
    simp [isCashPayment, hplat]
  refine ⟨by simp [validatePaymentData, hcash], ?_⟩
  simp [handlePaymentRun, handlePaymentBody, validatePaymentData, hcash, submitGuard]

theorem cash_payment_unconditional_witness :
    validatePaymentData ⟨true, []⟩ (some ⟨cashStr, false⟩) [] [] =
      some (VResult.ok PaymentData.cash) ∧
    handlePaymentRun 0 ⟨true, []⟩ (some ⟨cashStr, false⟩) [] [] [] =
      (0, SubmitOutcome.proceeded
        { typePayment := cashStr
          paymentAccountNumber := cashStr
          paymentAccountName := cashPlaceholder
          paymentDate := []
          isCashPayment := true }) :=
  cash_payment_unconditional ⟨true, []⟩ ⟨cashStr, false⟩ [] [] [] rfl

/-- C6: on entry to the review-order page, a missing paymentInfo redirects to
the payment page with an error toast; with paymentInfo set but an absent or
empty cart the user is redirected to the cart page with an error toast; only
when both guards pass does the page render. -/
theorem review_entry_guard :
    ∀ (orderInfo : Option OrderInfo) (cart : Option (List CartItem)),
      ((orderInfo = none ∨ ∃ oi, orderInfo = some oi ∧ oi.paymentInfo = none) →
        checkOrderData orderInfo cart = ReviewAction.toastAndGoPayment) ∧
      (∀ oi p, orderInfo = some oi → oi.paymentInfo = some p →
        (cart = none ∨ cart = some []) →
        checkOrderData orderInfo cart = ReviewAction.toastAndGoCart) ∧
      (∀ oi p items, orderInfo = some oi → oi.paymentInfo = some p →
        cart = some items → items ≠ [] →
        checkOrderData orderInfo cart = ReviewAction.render) := by
  intro orderInfo cart
  refine ⟨?_, ?_, ?_⟩
  · rintro (rfl | ⟨oi, rfl, hpi⟩)
    · rfl
    · simp [checkOrderData, hpi]
  · rintro oi p rfl hpi (rfl | rfl) <;> simp [checkOrderData, hpi]
  · rintro oi p items rfl hpi rfl hne
    rcases items with _ | ⟨a, t⟩
    · exact absurd rfl hne
    · simp [checkOrderData, hpi]

theorem review_entry_guard_witness :
    checkOrderData none none = ReviewAction.toastAndGoPayment ∧
    checkOrderData (some ⟨some ⟨[], [], [], [], true⟩⟩) (some []) =
      ReviewAction.toastAndGoCart ∧
    checkOrderData (some ⟨some ⟨[], [], [], [], true⟩⟩) (some [⟨100, 1, 100⟩]) =
      ReviewAction.render :=
  ⟨(review_entry_guard none none).1 (Or.inl rfl),
   (review_entry_guard (some ⟨some ⟨[], [], [], [], true⟩⟩) (some [])).2.1
     ⟨some ⟨[], [], [], [], true⟩⟩ ⟨[], [], [], [], true⟩ rfl rfl (Or.inr rfl),
   (review_entry_guard (some ⟨some ⟨[], [], [], [], true⟩⟩) (some [⟨100, 1, 100⟩])).2.2
     ⟨some ⟨[], [], [], [], true⟩⟩ ⟨[], [], [], [], true⟩ [⟨100, 1, 100⟩] rfl rfl rfl
     (List.cons_ne_nil _ _)⟩

/-- C7: a confirmation-page rendering with no server-issued orderId (undefined
or null, both none here) shows the not-found view; with an orderId present it
shows the confirmation content instead. -/
theorem confirmation_requires_order_id :
    confirmationRender none = ConfirmationView.notFoundPage ∧
    ∀ i, confirmationRender (some i) = ConfirmationView.confirmationContent i :=
  ⟨rfl, fun _ => rfl⟩

/-- C8: under the subtotal invariant (each item's subtotal is price times
quantity, recomputed on every change), cartTotal is the sum of price times
quantity over the items and cartCount is the sum of the quantities. -/
theorem cart_totals :
    ∀ c : List CartItem, subtotalInvariant c →
      cartTotal c = (c.map (fun i => i.price * (i.quantity : ℚ))).sum ∧
      cartCount c = (c.map (fun i => i.quantity)).sum := by
  intro c h
  refine ⟨?_, rfl⟩
  induction c with
  | nil => rfl
  | cons a t ih =>
    have ha := h a (List.mem_cons_self a t)
    have ht := ih (fun i hi => h i (List.mem_cons_of_mem a hi))
    simp only [cartTotal, List.map_cons, List.sum_cons] at *
    rw [ha, ht]

theorem cart_totals_witness :
    cartTotal [⟨100, 1, 100⟩, ⟨50, 3, 150⟩] = 250 ∧
    cartCount [⟨100, 1, 100⟩, ⟨50, 3, 150⟩] = 4 := by
  have h := cart_totals [⟨100, 1, 100⟩, ⟨50, 3, 150⟩]
    (by intro i hi; fin_cases hi <;> norm_num)
  exact ⟨h.1.trans (by norm_num), h.2.trans (by norm_num)⟩

lemma hexDigitChar_isHex {m : Nat} (h : m < 16) : isHexDigit (hexDigitChar m) = true := by
  interval_cases m <;> decide

lemma natToHexAux_hex :
    ∀ (fuel n : Nat), ∀ c ∈ natToHexAux fuel n, isHexDigit c = true := by
  intro fuel
  induction fuel with
  | zero => intro n c hc; simp [natToHexAux] at hc
  | succ f ih =>
    intro n c hc
    by_cases hn : n = 0
    · simp [natToHexAux, hn] at hc
    · simp only [natToHexAux, if_neg hn, List.mem_append, List.mem_singleton] at hc
      rcases hc with hc | rfl
      · exact ih _ c hc
      · exact hexDigitChar_isHex (Nat.mod_lt n (by norm_num))

lemma natToHex_hex (n : Nat) : ∀ c ∈ natToHex n, isHexDigit c = true := by
  intro c hc
  by_cases hn : n = 0
  · simp [natToHex, hn] at hc
    subst hc
    decide
  · simp only [natToHex, if_neg hn] at hc
    exact natToHexAux_hex _ _ c hc

/-- C9: the telemetry setUser clears the reported identity for a null user,
and for any user it reports at most an id, a role and an email that is the
hex-rendered hash of the raw address followed by the fixed anonymization
domain — every character of the local part is a hex digit, so the raw email
is never sent. -/
theorem setUser_anonymizes :
    setUser none = none ∧
    ∀ u su, setUser (some u) = some su →
      ((su.email = none ∧ (u.email = none ∨ u.email = some [])) ∨
       (∃ e, u.email = some e ∧ e ≠ [] ∧
         su.email = some (natToHex (hashCode e).natAbs ++ anonDomain) ∧
         ∀ c ∈ natToHex (hashCode e).natAbs, isHexDigit c = true)) := by
  refine ⟨rfl, ?_⟩
  intro u su h
  simp only [setUser, Option.some.injEq] at h
  cases hu : u.email with
  | none =>
    left
    refine ⟨?_, Or.inl rfl⟩
    rw [← h]
    simp [hu]
  | some e =>
    by_cases he : e.isEmpty
    · left
      have he' : e = [] := by simpa using he
      refine ⟨?_, Or.inr (by rw [he'])⟩
      rw [← h]
      simp [hu, he]
    · right
      refine ⟨e, rfl, by simpa using he, ?_, natToHex_hex _⟩
      rw [← h]
      simp [hu, he, anonEmail]

theorem setUser_anonymizes_witness :
    ((({ id := some ['u'], email := some (anonEmail ['a', '@', 'b']),
          role := "user".toList } : SentryUser).email = none ∧
       ((⟨some ['u'], none, some ['a', '@', 'b'], none⟩ : AppUser).email = none ∨
        (⟨some ['u'], none, some ['a', '@', 'b'], none⟩ : AppUser).email = some [])) ∨
     (∃ e, (⟨some ['u'], none, some ['a', '@', 'b'], none⟩ : AppUser).email = some e ∧
        e ≠ [] ∧
        ({ id := some ['u'], email := some (anonEmail ['a', '@', 'b']),
           role := "user".toList } : SentryUser).email =
          some (natToHex (hashCode e).natAbs ++ anonDomain) ∧
        ∀ c ∈ natToHex (hashCode e).natAbs, isHexDigit c = true)) :=
  setUser_anonymizes.2 ⟨some ['u'], none, some ['a', '@', 'b'], none⟩
    { id := some ['u'], email := some (anonEmail ['a', '@', 'b']), role := "user".toList }
    rfl

lemma startsWithSeq_length_le :
    ∀ (p s : List Char), startsWithSeq p s = true → p.length ≤ s.length := by
  intro p
  induction p with
  | nil => intro s _; simp
  | cons a ps ih =>
    intro s h
    cases s with
    | nil => simp [startsWithSeq] at h
    | cons c cs =>
      simp only [startsWithSeq, Bool.and_eq_true] at h
      have := ih cs h.2
      simp only [List.length_cons]
      omega

lemma startsWithSeq_eq_iff :
    ∀ (p s : List Char), p.length = s.length → (startsWithSeq p s = true ↔ p = s) := by
  intro p
  induction p with
  | nil =>
    intro s h
    cases s with
    | nil => simp [startsWithSeq]
    | cons c cs => simp at h
  | cons a ps ih =>
    intro s h
    cases s with
    | nil => simp at h
    | cons c cs =>
      have hl : ps.length = cs.length := by simpa using h
      simp [startsWithSeq, Bool.and_eq_true, beq_iff_eq, ih cs hl, List.cons.injEq]

lemma containsAt_eq_false_of_lt :
    ∀ (s p : List Char), s.length < p.length → containsAt p s = false := by
  intro s
  induction s with
  | nil =>
    intro p h
    cases p with
    | nil => simp at h
    | cons a ps => simp [containsAt]
  | cons c cs ih =>
    intro p h
    simp only [containsAt, Bool.or_eq_false_iff]
    constructor
    · cases hsw : startsWithSeq p (c :: cs) with
      | false => rfl
      | true =>
        have := startsWithSeq_length_le p (c :: cs) hsw
        omega
    · exact ih p (by simp at h ⊢; omega)

lemma containsAt_eq_iff :
    ∀ (p s : List Char), p.length = s.length → (containsAt p s = true ↔ s = p) := by
  intro p s h
  cases s with
  | nil =>
    have hp : p = [] := List.length_eq_zero.mp (by simpa using h)
    subst hp
    simp [containsAt]
  | cons c cs =>
    have hshort : containsAt p cs = false :=
      containsAt_eq_false_of_lt cs p (by simp at h ⊢; omega)
    have hsw := startsWithSeq_eq_iff p (c :: cs) h
    simp [containsAt, hshort, hsw, eq_comm]

lemma isDjiboutiFormat_length {s : List Char} (h : isDjiboutiFormat s = true) :
    s.length = 8 := by
  cases s with
  | nil => simp [isDjiboutiFormat] at h
  | cons a t =>
    cases t with
    | nil => simp [isDjiboutiFormat] at h
    | cons b rest =>
      simp only [isDjiboutiFormat, Bool.and_eq_true, beq_iff_eq] at h
      have h6 := h.1.2
      simp only [List.length_cons]
      omega

lemma isSimpleNumber_iff {s : List Char} (h : s.length = 8) :
    isSimpleNumber s = true ↔ s ∈ blockList := by
  have h1 := containsAt_eq_iff "77000000".toList s (by simp [h])
  have h2 := containsAt_eq_iff "77111111".toList s (by simp [h])
  have h3 := containsAt_eq_iff "77123456".toList s (by simp [h])
  have h4 := containsAt_eq_iff "77654321".toList s (by simp [h])
  simp only [isSimpleNumber, blockList, List.any_cons, List.any_nil, Bool.or_eq_true,
    Bool.false_eq_true, or_false, List.mem_cons, List.not_mem_nil, h1, h2, h3, h4]

/-- C2: a typed account number whose digits match the 8-digit local mobile
pattern (77 followed by six digits) is rejected by the number check exactly
when it is one of the four block-listed obviously-fake sequences, and accepted
otherwise. -/
theorem djibouti_blocklist_check :
    ∀ input : List Char,
      isDjiboutiFormat (stripNonDigits input) = true →
      ((liveNumberValid input = some false ↔ stripNonDigits input ∈ blockList) ∧
       (liveNumberValid input = some true ↔ stripNonDigits input ∉ blockList)) := by
  intro input hdj
  have hlen := isDjiboutiFormat_length hdj
  have hne : ¬(stripNonDigits input = []) := by
    intro h
    rw [h] at hlen
    simp at hlen
  have hsimp := isSimpleNumber_iff hlen
  simp only [liveNumberValid, if_neg hne, if_pos hdj]
  cases hb : isSimpleNumber (stripNonDigits input) with
  | false =>
    have hmem : ¬(stripNonDigits input ∈ blockList) := by
      rw [← hsimp]
      simp [hb]
    simp [hmem]
  | true =>
    have hmem : stripNonDigits input ∈ blockList := hsimp.mp hb
    simp [hmem]

theorem djibouti_blocklist_check_witness :
    ((liveNumberValid "77123456".toList = some false ↔
        stripNonDigits "77123456".toList ∈ blockList) ∧
     (liveNumberValid "77123456".toList = some true ↔
        stripNonDigits "77123456".toList ∉ blockList)) :=
  djibouti_blocklist_check "77123456".toList (by decide)

lemma not_goodName_of_cond {a : List Char}
    (h : (splitWs (trimStr a)).length < 2 ∨ ∃ w ∈ splitWs (trimStr a), w.length < 2) :
    ¬goodName a := by
  rintro ⟨h2, hall⟩
  rcases h with h | ⟨w, hw, hlt⟩
  · omega
  · have := hall w hw
    omega

lemma cond_of_not_goodName {a : List Char} (h : ¬goodName a) :
    (splitWs (trimStr a)).length < 2 ∨ ∃ w ∈ splitWs (trimStr a), w.length < 2 := by
  by_cases h2 : (splitWs (trimStr a)).length < 2
  · exact Or.inl h2
  · right
    by_contra hno
    push_neg at hno
    exact h ⟨by omega, fun w hw => by have := hno w hw; omega⟩

/-- A non-cash submission whose name or number fails never produces an
isValid-true result; this lemma reduces validatePaymentData, once the
required-fields gate is passed and the name is well formed, to its
number-classification tail. -/
lemma validate_unfold_core (dj : DjResult) (sel : PaymentMethod)
    (accountName accountNumber : List Char)
    (hcash : isCashPayment (some sel) = false)
    (hgn : goodName accountName)
    (hclean : stripNonDigits accountNumber ≠ []) :
    validatePaymentData dj (some sel) accountName accountNumber =
      (if isDjiboutiFormat (stripNonDigits accountNumber) = true then
        (if dj.isValid = true then
          some (VResult.ok
            (PaymentData.account (trimStr accountName) (stripNonDigits accountNumber)))
        else none)
      else if (stripNonDigits accountNumber).length < 4 ∨
          30 < (stripNonDigits accountNumber).length then none
      else if isAllZeros (stripNonDigits accountNumber) = true ∨
          isRepeating (stripNonDigits accountNumber) = true then none
      else some (VResult.ok
        (PaymentData.account (trimStr accountName) (stripNonDigits accountNumber)))) := by
  have hname : ¬((splitWs (trimStr accountName)).length < 2 ∨
      ∃ w ∈ splitWs (trimStr accountName), w.length < 2) :=
    fun hcond => not_goodName_of_cond hcond hgn
  simp only [validatePaymentData]
  rw [if_neg (by simp [hcash])]
  rw [if_neg (by simp [goodName_trim_ne hgn, hclean])]
  rw [if_neg hname]

/-- A non-cash submission with a bad holder name is stopped at the
required-fields or name gate with an error object. -/
lemma validate_name_reject (dj : DjResult) (sel : PaymentMethod)
    (accountName accountNumber : List Char)
    (hcash : isCashPayment (some sel) = false)
    (hbad : ¬goodName accountName) :
    validatePaymentData dj (some sel) accountName accountNumber =
      some (VResult.err VError.allFieldsRequired) ∨
    validatePaymentData dj (some sel) accountName accountNumber =
      some (VResult.err VError.nameInvalid) := by
  simp only [validatePaymentData]
  rw [if_neg (by simp [hcash])]
  by_cases hreq : some sel = none ∨ trimStr accountName = [] ∨
      stripNonDigits accountNumber = []
  · rw [if_pos hreq]
    exact Or.inl rfl
  · rw [if_neg hreq, if_pos (cond_of_not_goodName hbad)]
    exact Or.inr rfl

/-- C3: for a non-cash submission with a well-formed holder name whose account
number does not match the local mobile pattern, the submit-time validation
accepts exactly the digit strings of length 4 to 30 that are neither all zeros
nor a single repeated digit, and the live number check agrees. -/
theorem other_platform_number_check :
    ∀ (dj : DjResult) (sel : PaymentMethod) (accountName accountNumber : List Char),
      isCashPayment (some sel) = false →
      goodName accountName →
      isDjiboutiFormat (stripNonDigits accountNumber) = false →
      (((∃ d, validatePaymentData dj (some sel) accountName accountNumber =
           some (VResult.ok d)) ↔
        (4 ≤ (stripNonDigits accountNumber).length ∧
         (stripNonDigits accountNumber).length ≤ 30 ∧
         isAllZeros (stripNonDigits accountNumber) = false ∧
         isRepeating (stripNonDigits accountNumber) = false)) ∧
       (liveNumberValid accountNumber = some true ↔
        (4 ≤ (stripNonDigits accountNumber).length ∧
         (stripNonDigits accountNumber).length ≤ 30 ∧
         isAllZeros (stripNonDigits accountNumber) = false ∧
         isRepeating (stripNonDigits accountNumber) = false))) := by
  intro dj sel accountName accountNumber hcash hgn hdjf
  constructor
  · by_cases hclean : stripNonDigits accountNumber = []
    · constructor
      · rintro ⟨d, hd⟩
        simp only [validatePaymentData] at hd
        rw [if_neg (by simp [hcash]), if_pos (by simp [hclean])] at hd
        simp at hd
      · rintro ⟨h4, _, _, _⟩
        rw [hclean] at h4
        simp at h4
    · rw [validate_unfold_core dj sel accountName accountNumber hcash hgn hclean]
      rw [if_neg (by simp [hdjf])]
      by_cases hlen : (stripNonDigits accountNumber).length < 4 ∨
          30 < (stripNonDigits accountNumber).length
      · rw [if_pos hlen]
        constructor
        · rintro ⟨d, hd⟩
          simp at hd
        · rintro ⟨h4, h30, _, _⟩
          omega
      · rw [if_neg hlen]
        by_cases hzr : isAllZeros (stripNonDigits accountNumber) = true ∨
            isRepeating (stripNonDigits accountNumber) = true
        · rw [if_pos hzr]
          constructor
          · rintro ⟨d, hd⟩
            simp at hd
          · rintro ⟨_, _, hz, hr⟩
            rcases hzr with h | h
            · rw [hz] at h
              simp at h
            · rw [hr] at h
              simp at h
        · rw [if_neg hzr]
          simp only [not_or, Bool.not_eq_true] at hzr
          constructor
          · intro _
            exact ⟨by omega, by omega, hzr.1, hzr.2⟩
          · intro _
            exact ⟨_, rfl⟩
  · simp only [liveNumberValid]
    by_cases hclean : stripNonDigits accountNumber = []
    · rw [if_pos hclean]
      constructor
      · intro h
        simp at h
      · rintro ⟨h4, _, _, _⟩
        rw [hclean] at h4
        simp at h4
    · rw [if_neg hclean, if_neg (by simp [hdjf])]
      by_cases hlen : 4 ≤ (stripNonDigits accountNumber).length ∧
          (stripNonDigits accountNumber).length ≤ 30
      · rw [if_pos hlen]
        simp only [Option.some.injEq, Bool.and_eq_true, Bool.not_eq_true']
        constructor
        · rintro ⟨ha, hb⟩
          exact ⟨hlen.1, hlen.2, ha, hb⟩
        · rintro ⟨_, _, ha, hb⟩
          exact ⟨ha, hb⟩
      · rw [if_neg hlen]
        constructor
        · intro h
          simp at h
        · rintro ⟨h4, h30, _, _⟩
          exact absurd ⟨h4, h30⟩ hlen

theorem other_platform_number_check_witness :
    (((∃ d, validatePaymentData ⟨true, []⟩ (some ⟨"BCI-PAY".toList, false⟩)
         "Jean Dupont".toList "12345678".toList = some (VResult.ok d)) ↔
      (4 ≤ (stripNonDigits "12345678".toList).length ∧
       (stripNonDigits "12345678".toList).length ≤ 30 ∧
       isAllZeros (stripNonDigits "12345678".toList) = false ∧
       isRepeating (stripNonDigits "12345678".toList) = false)) ∧
     (liveNumberValid "12345678".toList = some true ↔
      (4 ≤ (stripNonDigits "12345678".toList).length ∧
       (stripNonDigits "12345678".toList).length ≤ 30 ∧
       isAllZeros (stripNonDigits "12345678".toList) = false ∧
       isRepeating (stripNonDigits "12345678".toList) = false))) :=
  other_platform_number_check ⟨true, []⟩ ⟨"BCI-PAY".toList, false⟩
    "Jean Dupont".toList "12345678".toList (by decide) (by decide) (by decide)

/-- C4: for a non-cash submission whose account number passes its own check,
the submit-time validation succeeds exactly when the trimmed holder name
splits into at least two whitespace-separated tokens of at least two
characters each, and the live name check accepts exactly the same names — in
particular an empty name, a single word, or any token shorter than two
characters is rejected. -/
theorem account_name_check :
    ∀ (dj : DjResult) (sel : PaymentMethod) (accountName accountNumber : List Char),
      isCashPayment (some sel) = false →
      dj.isValid = true →
      (isDjiboutiFormat (stripNonDigits accountNumber) = true ∨
        (4 ≤ (stripNonDigits accountNumber).length ∧
         (stripNonDigits accountNumber).length ≤ 30 ∧
         isAllZeros (stripNonDigits accountNumber) = false ∧
         isRepeating (stripNonDigits accountNumber) = false)) →
      (((∃ d, validatePaymentData dj (some sel) accountName accountNumber =
           some (VResult.ok d)) ↔ goodName accountName) ∧
       (liveNameValid accountName = some true ↔ goodName accountName)) := by
  intro dj sel accountName accountNumber hcash hdv hnum
  have hclean : stripNonDigits accountNumber ≠ [] := by
    rcases hnum with hdj | ⟨h4, _, _, _⟩
    · intro h
      have := isDjiboutiFormat_length hdj
      rw [h] at this
      simp at this
    · intro h
      rw [h] at h4
      simp at h4
  constructor
  · by_cases hgn : goodName accountName
    · refine iff_of_true ?_ hgn
      rw [validate_unfold_core dj sel accountName accountNumber hcash hgn hclean]
      by_cases hdjc : isDjiboutiFormat (stripNonDigits accountNumber) = true
      · rw [if_pos hdjc, if_pos hdv]
        exact ⟨_, rfl⟩
      · rw [if_neg hdjc]
        rcases hnum with hdj | ⟨h4, h30, hz, hr⟩
        · exact absurd hdj hdjc
        · rw [if_neg (by omega), if_neg (by simp [hz, hr])]
          exact ⟨_, rfl⟩
    · refine iff_of_false ?_ hgn
      rintro ⟨d, hd⟩
      rcases validate_name_reject dj sel accountName accountNumber hcash hgn with h | h <;>
        rw [h] at hd <;> simp at hd
  · by_cases hemp : accountName = []
    · subst hemp
      constructor
      · intro h
        simp [liveNameValid] at h
      · intro hgn
        exact absurd rfl (goodName_trim_ne hgn)
    · simp only [liveNameValid, if_neg hemp, Option.some.injEq, Bool.and_eq_true,
        decide_eq_true_eq]
      constructor
      · rintro ⟨h1, h2⟩
        exact ⟨h1, h2⟩
      · intro hgn
        exact ⟨hgn.1, hgn.2⟩

theorem account_name_check_witness :
    (((∃ d, validatePaymentData ⟨true, []⟩ (some ⟨"WAAFI".toList, false⟩)
         "Jean Dupont".toList "77234567".toList = some (VResult.ok d)) ↔
      goodName "Jean Dupont".toList) ∧
     (liveNameValid "Jean Dupont".toList = some true ↔ goodName "Jean Dupont".toList)) :=
  account_name_check ⟨true, []⟩ ⟨"WAAFI".toList, false⟩
    "Jean Dupont".toList "77234567".toList (by decide) rfl (Or.inl (by decide))


/-- C10: on a non-cash submission with a well-formed name, when the external
local-number helper rejects the number, or a non-mobile number fails the
length or repeated-digit checks, validatePaymentData returns undefined rather
than an isValid-false object; handlePayment then reads .isValid on undefined,
the TypeError aborts the submission through the generic catch branch, and the
field-specific error branch is never taken. -/
theorem undefined_validation_abort :
    ∀ (dj : DjResult) (sel : PaymentMethod) (accountName accountNumber now : List Char),
      isCashPayment (some sel) = false →
      goodName accountName →
      ((isDjiboutiFormat (stripNonDigits accountNumber) = true ∧ dj.isValid = false) ∨
       (isDjiboutiFormat (stripNonDigits accountNumber) = false ∧
        stripNonDigits accountNumber ≠ [] ∧
        ((stripNonDigits accountNumber).length < 4 ∨
         30 < (stripNonDigits accountNumber).length ∨
         isAllZeros (stripNonDigits accountNumber) = true ∨
         isRepeating (stripNonDigits accountNumber) = true))) →
      validatePaymentData dj (some sel) accountName accountNumber = none ∧
      handlePaymentBody dj (some sel) accountName accountNumber now =
        Except.error JsErr.typeError ∧
      handlePaymentRun 0 dj (some sel) accountName accountNumber now =
        (0, SubmitOutcome.genericError) := by
  intro dj sel accountName accountNumber now hcash hgn hfail
  have htrim := goodName_trim_ne hgn
  have hclean : stripNonDigits accountNumber ≠ [] := by
    rcases hfail with ⟨hdj, _⟩ | ⟨_, hne, _⟩
    · intro h
      have := isDjiboutiFormat_length hdj
      rw [h] at this
      simp at this
    · exact hne
  have hv : validatePaymentData dj (some sel) accountName accountNumber = none := by
    simp only [validatePaymentData]
    rw [if_neg (by simp [hcash])]
    rw [if_neg (by simp [htrim, hclean])]
    rw [if_neg (by push_neg; exact ⟨hgn.1, hgn.2⟩)]
    rcases hfail with ⟨hdj, hdv⟩ | ⟨hdjf, _, hbad⟩
    · rw [if_pos hdj, if_neg (by simp [hdv])]
    · rw [if_neg (by simp [hdjf])]
      by_cases hlen : (stripNonDigits accountNumber).length < 4 ∨
          30 < (stripNonDigits accountNumber).length
      · rw [if_pos hlen]
      · rw [if_neg hlen]
        rw [if_pos ?_]
        rcases hbad with h | h | h | h
        · exact absurd (Or.inl h) hlen
        · exact absurd (Or.inr h) hlen
        · exact Or.inl h
        · exact Or.inr h
  refine ⟨hv, ?_, ?_⟩
  · simp [handlePaymentBody, hv]
  · simp [handlePaymentRun, submitGuard, handlePaymentBody, hv]

theorem undefined_validation_abort_witness :
    validatePaymentData ⟨false, []⟩ (some ⟨"WAAFI".toList, false⟩)
      "Jean Dupont".toList "77123456".toList = none ∧
    handlePaymentBody ⟨false, []⟩ (some ⟨"WAAFI".toList, false⟩)
      "Jean Dupont".toList "77123456".toList [] = Except.error JsErr.typeError ∧
    handlePaymentRun 0 ⟨false, []⟩ (some ⟨"WAAFI".toList, false⟩)
      "Jean Dupont".toList "77123456".toList [] = (0, SubmitOutcome.genericError) :=
  undefined_validation_abort ⟨false, []⟩ ⟨"WAAFI".toList, false⟩
    "Jean Dupont".toList "77123456".toList [] (by decide) (by decide)
    (Or.inl ⟨by decide, rfl⟩)

end BuyItNow
